import Mathlib

/-!
# Verification of the Pancakeswap prediction-bot backtest core

A shallow embedding of the backtest engine of the repository
(`backtestSimulator.js`, `prediction.js`, `indicators.js`,
`featureEngineering.js`, `randomForests.js`, `patterns.js`) together with
proofs and refutations of the specification claims about it.

JavaScript numbers are modelled by `JNum α`: either `undefined`, `NaN`,
`+Infinity`, `-Infinity`, or a finite value drawn from a linear ordered
field `α`.  Finite float values are idealised as exact rationals/reals
(every float64 value is a rational; rounding is not modelled).  The
special-value propagation rules of JavaScript arithmetic (any operation
on `undefined` yields `NaN`, `0/0 = NaN`, `x/0 = ±Infinity`, comparisons
involving `NaN` are false, ...) are modelled exactly.  `-0` is identified
with `0`.
-/

/-- A JavaScript numeric value over a carrier field `α`:
`undefined`, `NaN`, `+Infinity`, `-Infinity`, or a finite number. -/
inductive JNum (α : Type) where
  | undefined : JNum α
  | nan : JNum α
  | pinf : JNum α
  | ninf : JNum α
  | num : α → JNum α
  deriving DecidableEq, Repr

variable {α : Type} [LinearOrderedField α]

set_option linter.unusedSectionVars false

/-- JavaScript addition.  `undefined` coerces to `NaN`; `∞ + (-∞) = NaN`. -/
def jadd : JNum α → JNum α → JNum α
  | .num a, .num b => .num (a + b)
  | .pinf, .pinf => .pinf
  | .pinf, .num _ => .pinf
  | .num _, .pinf => .pinf
  | .ninf, .ninf => .ninf
  | .ninf, .num _ => .ninf
  | .num _, .ninf => .ninf
  | _, _ => .nan

/-- JavaScript unary minus. -/
def jneg : JNum α → JNum α
  | .num a => .num (-a)
  | .pinf => .ninf
  | .ninf => .pinf
  | _ => .nan

/-- JavaScript subtraction, `a - b = a + (-b)`. -/
def jsub (a b : JNum α) : JNum α := jadd a (jneg b)

/-- JavaScript multiplication.  `0 * ±∞ = NaN`. -/
def jmul : JNum α → JNum α → JNum α
  | .num a, .num b => .num (a * b)
  | .pinf, .pinf => .pinf
  | .pinf, .ninf => .ninf
  | .ninf, .pinf => .ninf
  | .ninf, .ninf => .pinf
  | .pinf, .num b => if b = 0 then .nan else if 0 < b then .pinf else .ninf
  | .num a, .pinf => if a = 0 then .nan else if 0 < a then .pinf else .ninf
  | .ninf, .num b => if b = 0 then .nan else if 0 < b then .ninf else .pinf
  | .num a, .ninf => if a = 0 then .nan else if 0 < a then .ninf else .pinf
  | _, _ => .nan

/-- JavaScript division.  `0/0 = NaN`, `a/0 = ±∞` by the sign of `a`,
`a/±∞ = 0`, `±∞/±∞ = NaN`. -/
def jdiv : JNum α → JNum α → JNum α
  | .num a, .num b =>
      if b = 0 then (if a = 0 then .nan else if 0 < a then .pinf else .ninf)
      else .num (a / b)
  | .num _, .pinf => .num 0
  | .num _, .ninf => .num 0
  | .pinf, .num b => if 0 ≤ b then .pinf else .ninf
  | .ninf, .num b => if 0 ≤ b then .ninf else .pinf
  | _, _ => .nan

/-- JavaScript `Math.abs`. -/
def jabs : JNum α → JNum α
  | .num a => .num |a|
  | .pinf => .pinf
  | .ninf => .pinf
  | _ => .nan

/-- JavaScript `<` as a boolean; any comparison involving `NaN` or
`undefined` is `false`. -/
def jlt : JNum α → JNum α → Bool
  | .num a, .num b => decide (a < b)
  | .num _, .pinf => true
  | .ninf, .num _ => true
  | .ninf, .pinf => true
  | _, _ => false

/-- JavaScript `>` as a boolean. -/
def jgt (a b : JNum α) : Bool := jlt b a

/-- JavaScript strict equality `===` on numbers; `NaN === NaN` is `false`,
`undefined === undefined` is `true`. -/
def jeqS : JNum α → JNum α → Bool
  | .num a, .num b => decide (a = b)
  | .pinf, .pinf => true
  | .ninf, .ninf => true
  | .undefined, .undefined => true
  | _, _ => false

/-- JavaScript `Math.min` of two values (`NaN` and `undefined` poison). -/
def jmin : JNum α → JNum α → JNum α
  | .num a, .num b => .num (min a b)
  | .pinf, .num b => .num b
  | .num a, .pinf => .num a
  | .ninf, .num _ => .ninf
  | .num _, .ninf => .ninf
  | .pinf, .pinf => .pinf
  | .ninf, .ninf => .ninf
  | .pinf, .ninf => .ninf
  | .ninf, .pinf => .ninf
  | _, _ => .nan

/-- JavaScript `Math.max` of two values (`NaN` and `undefined` poison). -/
def jmax : JNum α → JNum α → JNum α
  | .num a, .num b => .num (max a b)
  | .pinf, .num _ => .pinf
  | .num _, .pinf => .pinf
  | .ninf, .num b => .num b
  | .num a, .ninf => .num a
  | .pinf, .pinf => .pinf
  | .ninf, .ninf => .ninf
  | .pinf, .ninf => .pinf
  | .ninf, .pinf => .pinf
  | _, _ => .nan

/-- JavaScript `xs.reduce((a, b) => a + b, 0)`. -/
def jsum (l : List (JNum α)) : JNum α := l.foldl jadd (.num 0)

/-- JavaScript `Math.min(...l)`; the empty spread gives `Infinity`. -/
def jminList (l : List (JNum α)) : JNum α := l.foldl jmin .pinf

/-- JavaScript `Math.max(...l)`; the empty spread gives `-Infinity`. -/
def jmaxList (l : List (JNum α)) : JNum α := l.foldl jmax .ninf

/-- JavaScript array indexing `l[i]`: out-of-range access yields
`undefined`. -/
def jget (l : List (JNum α)) (i : ℕ) : JNum α := l.getD i .undefined

/-- JavaScript `Array.prototype.slice(start, stop)` with the exact
negative-index and clamping semantics. -/
def jsSlice {β : Type} (l : List β) (start stop : ℤ) : List β :=
  let n : ℤ := l.length
  let s : ℤ := if start < 0 then max (n + start) 0 else min start n
  let e : ℤ := if stop < 0 then max (n + stop) 0 else min stop n
  (l.drop s.toNat).take (e - s).toNat

/-- JavaScript `Math.sqrt` from the rational carrier into the reals;
negative arguments give `NaN`. -/
noncomputable def jsqrt : JNum ℚ → JNum ℝ
  | .num a => if a < 0 then .nan else .num (Real.sqrt a)
  | .pinf => .pinf
  | _ => .nan

/-- JavaScript `Math.exp` over the reals. -/
noncomputable def jexp : JNum ℝ → JNum ℝ
  | .num a => .num (Real.exp a)
  | .pinf => .pinf
  | .ninf => .num 0
  | _ => .nan

/-- Embeds a rational-valued JavaScript number into a real-valued one. -/
def castQR : JNum ℚ → JNum ℝ
  | .undefined => .undefined
  | .nan => .nan
  | .pinf => .pinf
  | .ninf => .ninf
  | .num a => .num (a : ℝ)

/-!
## `indicators.js`

Each function is translated statement-by-statement.  Loop variables follow
the JavaScript index ranges; `jsSlice` mirrors `Array.prototype.slice`.
-/

/-- One iteration of the recursive loop of `calculateRSI`
(`indicators.js`, `for (let i = period + 1; ...)`), carried as a fold
step over the state `(averageGain, averageLoss, rsiArray)`. -/
def rsiStep (prices : List (JNum α)) (period : ℕ)
    (st : JNum α × JNum α × List (JNum α)) (i : ℕ) :
    JNum α × JNum α × List (JNum α) :=
  let change := jsub (jget prices i) (jget prices (i - 1))
  let gain := if jgt change (.num 0) then change else .num 0
  let loss := if jlt change (.num 0) then jabs change else .num 0
  let aG := jdiv (jadd (jmul st.1 (.num ((period : α) - 1))) gain) (.num (period : α))
  let aL := jdiv (jadd (jmul st.2.1 (.num ((period : α) - 1))) loss) (.num (period : α))
  let rsNew := jdiv aG aL
  let rsiNew := if jeqS aL (.num 0) then .num 100
    else jsub (.num 100) (jdiv (.num 100) (jadd (.num 1) rsNew))
  (aG, aL, st.2.2 ++ [rsiNew])

/-- The body of `calculateRSI` (`indicators.js`).  Note that the seed
loop reads the deltas from the *end* of the sequence
(`prices[prices.length - i] - prices[prices.length - i - 1]` for
`i = 1..period`), and that the seed RSI value has no `averageLoss === 0`
guard, while the recursive loop (`rsiStep`, over
`i = period+1 .. length-1`) has one. -/
def calculateRSI (prices : List (JNum α)) (period : ℕ) : List (JNum α) :=
  if prices.length < period + 1 then [] else
  let n := prices.length
  let changes := (List.range period).map (fun j =>
    jsub (jget prices (n - (j + 1))) (jget prices (n - (j + 1) - 1)))
  let gains := changes.map (fun c => if jgt c (.num 0) then c else .num 0)
  let losses := changes.map (fun c => if jgt c (.num 0) then .num 0 else jabs c)
  let averageGain := jdiv (jsum gains) (.num (period : α))
  let averageLoss := jdiv (jsum losses) (.num (period : α))
  let rs := jdiv averageGain averageLoss
  let rsi := jsub (.num 100) (jdiv (.num 100) (jadd (.num 1) rs))
  ((List.range' (period + 1) (n - (period + 1))).foldl (rsiStep prices period)
    (averageGain, averageLoss, [rsi])).2.2

/-- One iteration of the EMA loop of `calculateEMA` (`indicators.js`):
append `prices[i] * k + emaArray[i - period] * (1 - k)` with
`k = 2 / (period + 1)`. -/
def emaStep (prices : List (JNum α)) (period : ℕ)
    (acc : List (JNum α)) (i : ℕ) : List (JNum α) :=
  let k := jdiv (.num 2) (.num ((period : α) + 1))
  acc ++ [jadd (jmul (jget prices i) k) (jmul (jget acc (i - period)) (jsub (.num 1) k))]

/-- The body of `calculateEMA` (`indicators.js`): seed with the simple
average of the first `period` prices, then iterate `emaStep` over
`i = period .. length - 1`. -/
def calculateEMA (prices : List (JNum α)) (period : ℕ) : List (JNum α) :=
  if prices.length < period then [] else
  let sma := jdiv (jsum (jsSlice prices 0 period)) (.num (period : α))
  (List.range' period (prices.length - period)).foldl (emaStep prices period) [sma]

/-- The body of `calculateSMA` (`indicators.js`): one trailing mean per
window end position `i = period .. length` (inclusive). -/
def calculateSMA (prices : List (JNum α)) (period : ℕ) : List (JNum α) :=
  if prices.length < period then [] else
  (List.range' period (prices.length - period + 1)).map (fun (i : ℕ) =>
    jdiv (jsum (jsSlice prices ((i : ℤ) - (period : ℤ)) (i : ℤ))) (.num (period : α)))

/-- The record returned by `calculateMACD`. -/
structure MACDResult (α : Type) where
  MACD : List (JNum α)
  signal : List (JNum α)
  histogram : List (JNum α)
  deriving DecidableEq, Repr

/-- The body of `calculateMACD` (`indicators.js`).  The `macdLine` maps
over `fastEMA` and reads `slowEMA[i]` at the same list index, so once `i`
passes the (shorter) `slowEMA` the read yields `undefined` and the
subtraction yields `NaN`.  The JavaScript guards `!fastEMA`, `!slowEMA`
and `!signalLine` test arrays, which are always truthy, so those branches
are unreachable and are not represented. -/
def calculateMACD (prices : List (JNum α))
    (fastPeriod slowPeriod signalPeriod : ℕ) : Option (MACDResult α) :=
  if prices.length < max fastPeriod slowPeriod + signalPeriod then none else
  let fastEMA := calculateEMA prices fastPeriod
  let slowEMA := calculateEMA prices slowPeriod
  let macdLine := (List.range fastEMA.length).map (fun i =>
    jsub (jget fastEMA i) (jget slowEMA i))
  let signalLine := calculateEMA macdLine signalPeriod
  some ⟨macdLine, signalLine,
    (List.range macdLine.length).map (fun i =>
      jsub (jget macdLine i) (jget signalLine i))⟩

/-- The record returned by `calculateStochasticOscillator`. -/
structure StochResult (α : Type) where
  k : List (JNum α)
  d : List (JNum α)
  deriving DecidableEq, Repr

/-- The body of `calculateStochasticOscillator` (`indicators.js`):
`%K = (close - lowestLow) / (highestHigh - lowestLow) * 100` over the
trailing `period`, and `%D` is pushed as `calculateSMA` of the last three
`%K` values once at least three exist. -/
def calculateStochasticOscillator (prices : List (JNum α)) (period : ℕ) :
    Option (StochResult α) :=
  if prices.length < period then none else
  let step := fun (st : List (JNum α) × List (JNum α)) (i : ℕ) =>
    let periodSlice := jsSlice prices ((i : ℤ) - (period : ℤ) + 1) ((i : ℤ) + 1)
    let low := jminList periodSlice
    let high := jmaxList periodSlice
    let close := jget periodSlice (periodSlice.length - 1)
    let kVal := jmul (jdiv (jsub close low) (jsub high low)) (.num 100)
    let kList := st.1 ++ [kVal]
    let dList := if 3 ≤ kList.length
      then st.2 ++ [jget (calculateSMA (jsSlice kList (-3) (kList.length : ℤ)) 3) 0]
      else st.2
    (kList, dList)
  let res := (List.range' (period - 1) (prices.length - (period - 1))).foldl step ([], [])
  some ⟨res.1, res.2⟩

/-- The helper `calculateStandardDeviation` (`indicators.js`): population
standard deviation; `Math.pow(x, 2)` coincides with `x * x` under these
semantics. -/
noncomputable def calculateStandardDeviation (values : List (JNum ℚ)) : JNum ℝ :=
  let avg := jdiv (jsum values) (.num (values.length : ℚ))
  let squareDiffs := values.map (fun v => jmul (jsub v avg) (jsub v avg))
  let avgSquareDiff := jdiv (jsum squareDiffs) (.num (squareDiffs.length : ℚ))
  jsqrt avgSquareDiff

/-- One Bollinger band triple. -/
structure BollingerBand where
  upper : JNum ℝ
  middle : JNum ℝ
  lower : JNum ℝ

/-- The body of `calculateBollingerBands` (`indicators.js`):
`upper/lower = middle ± multiplier * std` over the window
`prices.slice(i - period + 1, i + 1)`, where `i` indexes the SMA array.
The JavaScript guard `if (!sma)` tests an array and is unreachable. -/
noncomputable def calculateBollingerBands (prices : List (JNum ℚ)) (period : ℕ)
    (multiplier : ℚ) : Option (List BollingerBand) :=
  if prices.length < period then none else
  let sma := calculateSMA prices period
  some ((List.range sma.length).map (fun (i : ℕ) =>
    let slice := jsSlice prices ((i : ℤ) - (period : ℤ) + 1) ((i : ℤ) + 1)
    let std := calculateStandardDeviation slice
    { upper := jadd (castQR (jget sma i)) (jmul (castQR (.num multiplier)) std)
      middle := castQR (jget sma i)
      lower := jsub (castQR (jget sma i)) (jmul (castQR (.num multiplier)) std) }))

/-!
## Evaluation lemmas for the JavaScript operations

Rational arithmetic does not reduce inside the kernel, so concrete runs
of the embedded code are evaluated through this simp set instead of
`decide`.
-/

@[simp] theorem jadd_num_num (a b : α) : jadd (.num a) (.num b) = .num (a + b) := rfl

@[simp] theorem jadd_nan_right (x : JNum α) : jadd x .nan = .nan := by cases x <;> rfl

@[simp] theorem jadd_nan_left (x : JNum α) : jadd .nan x = .nan := by cases x <;> rfl

@[simp] theorem jadd_undef_right (x : JNum α) : jadd x .undefined = .nan := by cases x <;> rfl

@[simp] theorem jadd_undef_left (x : JNum α) : jadd .undefined x = .nan := by cases x <;> rfl

@[simp] theorem jneg_num (a : α) : jneg (.num a) = .num (-a) := rfl

@[simp] theorem jneg_nan : jneg (.nan : JNum α) = .nan := rfl

@[simp] theorem jneg_undefined : jneg (.undefined : JNum α) = .nan := rfl

@[simp] theorem jsub_num_num (a b : α) : jsub (.num a) (.num b) = .num (a - b) := by
  simp [jsub, sub_eq_add_neg]

@[simp] theorem jsub_nan_right (x : JNum α) : jsub x .nan = .nan := by
  simp [jsub]

@[simp] theorem jsub_undef_right (x : JNum α) : jsub x .undefined = .nan := by
  simp [jsub]

@[simp] theorem jmul_num_num (a b : α) : jmul (.num a) (.num b) = .num (a * b) := rfl

@[simp] theorem jmul_nan_left (x : JNum α) : jmul .nan x = .nan := by cases x <;> rfl

@[simp] theorem jmul_nan_right (x : JNum α) : jmul x .nan = .nan := by cases x <;> rfl

@[simp] theorem jdiv_num_num (a b : α) (h : b ≠ 0) :
    jdiv (.num a) (.num b) = .num (a / b) := by
  simp [jdiv, h]

@[simp] theorem jdiv_zero_zero : jdiv (.num (0 : α)) (.num 0) = .nan := by
  simp [jdiv]

@[simp] theorem jdiv_num_nan (x : JNum α) : jdiv x .nan = .nan := by cases x <;> rfl

@[simp] theorem jdiv_nan_left (x : JNum α) : jdiv .nan x = .nan := by cases x <;> rfl

@[simp] theorem jabs_num (a : α) : jabs (.num a) = .num |a| := rfl

@[simp] theorem jlt_num_num (a b : α) : jlt (.num a) (.num b) = decide (a < b) := rfl

@[simp] theorem jgt_num_num (a b : α) : jgt (.num a) (.num b) = decide (b < a) := rfl

@[simp] theorem jeqS_num_num (a b : α) : jeqS (.num a) (.num b) = decide (a = b) := rfl

@[simp] theorem jget_nil (i : ℕ) : jget ([] : List (JNum α)) i = .undefined := rfl

@[simp] theorem jget_cons_zero (x : JNum α) (l : List (JNum α)) : jget (x :: l) 0 = x := rfl

@[simp] theorem jget_cons_succ (x : JNum α) (l : List (JNum α)) (i : ℕ) :
    jget (x :: l) (i + 1) = jget l i := rfl

theorem jget_of_lt {l : List (JNum α)} {i : ℕ} (h : i < l.length) :
    jget l i = l.get ⟨i, h⟩ := by
  simp [jget, List.getD_eq_getElem?_getD, List.getElem?_eq_getElem h]

theorem jget_of_le {l : List (JNum α)} {i : ℕ} (h : l.length ≤ i) :
    jget l i = .undefined := by
  simp [jget, List.getD_eq_getElem?_getD, List.getElem?_eq_none h]

@[simp] theorem jsum_nil : jsum ([] : List (JNum α)) = .num 0 := rfl

theorem jsum_cons (x : JNum α) (l : List (JNum α)) :
    jsum (x :: l) = l.foldl jadd (jadd (.num 0) x) := rfl

@[simp] theorem castQR_num (a : ℚ) : castQR (.num a) = .num (a : ℝ) := rfl

@[simp] theorem castQR_nan : castQR .nan = .nan := rfl

@[simp] theorem castQR_undefined : castQR .undefined = .undefined := rfl

example : calculateRSI ([1, 1, 1].map JNum.num : List (JNum ℚ)) 2 = [JNum.nan] := by
  norm_num [calculateRSI, List.range_succ, jsum, jget]

/-!
## `backtestSimulator.js`: CircularBuffer, bet outcome, partitioning
-/

/-- The `CircularBuffer` class of `backtestSimulator.js`.  The backing
`Float64Array` is modelled as a total function on indices (it is only
ever read at indices `< size`), zero-initialised as in JavaScript. -/
structure CircularBuffer where
  size : ℕ
  buffer : ℕ → ℚ
  pointer : ℕ
  length : ℕ

/-- The `CircularBuffer` constructor: `new CircularBuffer(size)`. -/
def CircularBuffer.new (c : ℕ) : CircularBuffer :=
  ⟨c, fun _ => 0, 0, 0⟩

/-- The `push(item)` method: write at `pointer`, advance it mod `size`,
and grow `length` until it reaches `size`. -/
def CircularBuffer.push (b : CircularBuffer) (x : ℚ) : CircularBuffer :=
  { b with
    buffer := fun j => if j = b.pointer then x else b.buffer j
    pointer := (b.pointer + 1) % b.size
    length := if b.length < b.size then b.length + 1 else b.length }

/-- The `toArray()` method: read `length` entries starting from
`start = (pointer - length + size) % size`.  In every reachable state
`length ≤ pointer + size`, so the JavaScript expression equals the
natural-number expression `(pointer + size - length) % size`. -/
def CircularBuffer.toArray (b : CircularBuffer) : List ℚ :=
  (List.range b.length).map (fun i =>
    b.buffer (((b.pointer + b.size - b.length) % b.size + i) % b.size))

/-- Pushing a whole list of prices in order, as the worker loop does one
round at a time. -/
def CircularBuffer.pushAll (b : CircularBuffer) (xs : List ℚ) : CircularBuffer :=
  xs.foldl CircularBuffer.push b

/-- A bet direction (the JavaScript strings `bull` / `bear`). -/
inductive Direction where
  | bull : Direction
  | bear : Direction
  deriving DecidableEq, Repr

/-- A bet outcome (the JavaScript strings `win` / `lose`). -/
inductive Outcome where
  | win : Outcome
  | lose : Outcome
  deriving DecidableEq, Repr

/-- The outcome computation of `runBacktestWorker` (`backtestSimulator.js`
line 142): `prediction === (endingPrice > startingPrice ? 'bull' : 'bear')
? 'win' : 'lose'`. -/
def roundOutcome (prediction : Direction) (startingPrice endingPrice : ℚ) : Outcome :=
  if prediction = (if startingPrice < endingPrice then .bull else .bear)
  then .win else .lose

/-- The profit computation of `runBacktestWorker` (`backtestSimulator.js`
line 143): `outcome === 'win' ? betSize * 0.95 : -betSize`. -/
def roundProfit (outcome : Outcome) (betSize : ℚ) : ℚ :=
  if outcome = .win then betSize * (95 / 100) else -betSize

/-- The worker-count computation of `runBacktest`:
`Math.max(1, os.cpus().length - 1)`. -/
def numWorkerThreads (cpus : ℕ) : ℕ := max 1 (cpus - 1)

/-- The per-worker round count of `runBacktest`:
`Math.ceil(totalRounds / numCPUs)`. -/
def roundsPerWorker (totalRounds p : ℕ) : ℕ := (totalRounds + p - 1) / p

/-- The fresh-run partition list of `runBacktest`: worker `i` gets
`startOffset = i * roundsPerWorker` and
`endOffset = Math.min((i + 1) * roundsPerWorker, totalRounds)`. -/
def partitions (totalRounds p : ℕ) : List (ℕ × ℕ) :=
  (List.range p).map (fun i =>
    (i * roundsPerWorker totalRounds p,
     min ((i + 1) * roundsPerWorker totalRounds p) totalRounds))

/-!
## `patterns.js`
-/

/-- The record returned by `analyzeConsecutivePatterns` (the two `max`
fields it also carries are never read by `featureEngineering.js` and are
omitted); `consecutiveBulls`/`consecutiveBears` are the *current* streaks
at the end of the scan, per the source. -/
structure ConsecutivePatterns where
  consecutiveBulls : ℕ
  consecutiveBears : ℕ
  bullishProbability : ℚ
  bearishProbability : ℚ

/-- The body of `analyzeConsecutivePatterns` (`patterns.js`): scan the
last 20 prices, tracking current and maximal bull/bear streaks; the
probabilities are keyed on the maximal streaks. -/
def analyzeConsecutivePatterns (prices : List ℚ) : ConsecutivePatterns :=
  if prices.length < 3 then ⟨0, 0, 1/2, 1/2⟩ else
  let recentPrices := jsSlice prices (-20) (prices.length : ℤ)
  let st := (List.range' 1 (recentPrices.length - 1)).foldl
    (fun (st : ℕ × ℕ × ℕ × ℕ) (i : ℕ) =>
      let change := recentPrices.getD i 0 - recentPrices.getD (i - 1) 0
      if 0 < change then (st.1 + 1, 0, max st.2.2.1 (st.1 + 1), st.2.2.2)
      else if change < 0 then (0, st.2.1 + 1, st.2.2.1, max st.2.2.2 (st.2.1 + 1))
      else (0, 0, st.2.2.1, st.2.2.2))
    (0, 0, 0, 0)
  let maxBulls := st.2.2.1
  let maxBears := st.2.2.2
  let bullishProbability : ℚ :=
    if 3 ≤ maxBears then 7/10 else if 2 ≤ maxBears then 6/10
    else if 3 ≤ maxBulls then 3/10 else if 2 ≤ maxBulls then 4/10 else 1/2
  let bearishProbability : ℚ :=
    if 3 ≤ maxBulls then 7/10 else if 2 ≤ maxBulls then 6/10
    else if 3 ≤ maxBears then 3/10 else if 2 ≤ maxBears then 4/10 else 1/2
  ⟨st.1, st.2.1, bullishProbability, bearishProbability⟩

/-- The `trend` strings of `analyzePriceMovement`. -/
inductive Trend where
  | bullish : Trend
  | bearish : Trend
  | neutral : Trend
  deriving DecidableEq, Repr

/-- The record returned by `analyzePriceMovement` (the `recentChanges`
field is never read by `featureEngineering.js` and is omitted). -/
structure PriceMovement where
  trend : Trend
  momentum : JNum ℚ
  volatility : JNum ℝ

/-- The body of `analyzePriceMovement` (`patterns.js`): relative price
changes, momentum as the sum of the last five, volatility as the root of
their mean squared deviation from `momentum / 5`. -/
noncomputable def analyzePriceMovement (prices : List ℚ) : PriceMovement :=
  if prices.length < 5 then ⟨.neutral, .num 0, .num 0⟩ else
  let changes : List (JNum ℚ) := (List.range' 1 (prices.length - 1)).map (fun (i : ℕ) =>
    jdiv (.num (prices.getD i 0 - prices.getD (i - 1) 0)) (.num (prices.getD (i - 1) 0)))
  let recentChanges := jsSlice changes (-5) (changes.length : ℤ)
  let momentum := jsum recentChanges
  let volatility := jsqrt (jdiv
    (jsum (recentChanges.map (fun c =>
      jmul (jsub c (jdiv momentum (.num 5))) (jsub c (jdiv momentum (.num 5))))))
    (.num 5))
  let upMoves := (recentChanges.filter (fun c => jgt c (.num 0))).length
  let downMoves := (recentChanges.filter (fun c => jlt c (.num 0))).length
  let trend := if downMoves < upMoves then Trend.bullish
    else if upMoves < downMoves then Trend.bearish else Trend.neutral
  ⟨trend, momentum, volatility⟩

/-- The `pattern` strings of `detectReversalPatterns`. -/
inductive ReversalKind where
  | potentialBullishReversal : ReversalKind
  | potentialBearishReversal : ReversalKind
  | noReversal : ReversalKind
  deriving DecidableEq, Repr

/-- The record returned by `detectReversalPatterns`. -/
structure ReversalPatterns where
  pattern : ReversalKind
  strength : ℚ

/-- The body of `detectReversalPatterns` (`patterns.js`). -/
def detectReversalPatterns (prices : List ℚ) : ReversalPatterns :=
  if prices.length < 5 then ⟨.noReversal, 0⟩ else
  let recentPrices := jsSlice prices (-5) (prices.length : ℤ)
  let priceChanges : List ℚ := (List.range' 1 (recentPrices.length - 1)).map (fun (i : ℕ) =>
    recentPrices.getD i 0 - recentPrices.getD (i - 1) 0)
  let allPositive := priceChanges.all (fun c => decide (0 < c))
  let allNegative := priceChanges.all (fun c => decide (c < 0))
  let lastChange := priceChanges.getD (priceChanges.length - 1) 0
  if allPositive &&
      jgt (.num lastChange) (jmaxList ((jsSlice priceChanges 0 (-1)).map JNum.num)) then
    ⟨.potentialBearishReversal, 7/10⟩
  else if allNegative &&
      jlt (.num lastChange) (jminList ((jsSlice priceChanges 0 (-1)).map JNum.num)) then
    ⟨.potentialBullishReversal, 7/10⟩
  else ⟨.noReversal, 0⟩

/-!
## `randomForests.js`: feature and label preparation

The TensorFlow ensemble itself (`RandomForestPredictor`) is an external
collaborator; it is modelled by its observable result: either a predicted
probability or a thrown exception (`Except Unit ℝ`).
-/

/-- One 52-entry feature vector of `randomForests.js::prepareFeatures`:
the 50 window prices followed by their volatility and momentum. -/
noncomputable def rfWindowFeatures (window : List ℚ) : List (JNum ℝ) :=
  let returns : List (JNum ℚ) := (List.range (window.length - 1)).map (fun (i : ℕ) =>
    jdiv (.num (window.getD (i + 1) 0 - window.getD i 0)) (.num (window.getD i 0)))
  let volatility := jsqrt (jdiv (jsum (returns.map (fun r => jmul r r)))
    (.num (returns.length : ℚ)))
  let momentum := jdiv (.num (window.getD (window.length - 1) 0 - window.getD 0 0))
    (.num (window.getD 0 0))
  window.map (fun q => JNum.num (q : ℝ)) ++ [volatility, castQR momentum]

/-- The body of `randomForests.js::prepareFeatures`: reject fewer than 50
prices, handle exactly 51 as a single window, otherwise one sliding
50-price window per start offset `i < length - 50`. -/
noncomputable def prepareFeaturesRF (prices : List ℚ) : List (List (JNum ℝ)) :=
  if prices.length < 50 then []
  else if prices.length = 51 then [rfWindowFeatures (jsSlice prices 0 50)]
  else (List.range (prices.length - 50)).map (fun (i : ℕ) =>
    rfWindowFeatures (jsSlice prices (i : ℤ) ((i : ℤ) + 50)))

/-- The body of `randomForests.js::prepareLabels`: one `{0,1}` label per
index `i = 50 .. length - 1`, comparing `prices[i]` with `prices[i-1]`. -/
def prepareLabelsRF (prices : List ℚ) : List ℕ :=
  (List.range' 50 (prices.length - 50)).map (fun (i : ℕ) =>
    if prices.getD (i - 1) 0 < prices.getD i 0 then 1 else 0)

/-!
## `featureEngineering.js`
-/

/-- JavaScript `typeof x === 'number'`: `NaN` and the infinities are
numbers, `undefined` is not. -/
def jsTypeofIsNumber : JNum α → Bool
  | .undefined => false
  | _ => true

/-- The global JavaScript `isNaN` (with coercion): true on `NaN` and on
`undefined`, false on every number including the infinities. -/
def jsGlobalIsNaN : JNum α → Bool
  | .nan => true
  | .undefined => true
  | _ => false

/-- The normalisation map at the end of
`featureEngineering.js::prepareFeatures`: any entry that is not a number
or is `NaN` is replaced by `0`. -/
def sanitizeFeature (f : JNum ℝ) : JNum ℝ :=
  if jsTypeofIsNumber f && !jsGlobalIsNaN f then f else .num 0

/-- The body of `featureEngineering.js::prepareFeatures`.  `macd.MACD` is
an unguarded property access, so a `null` MACD result would throw and be
caught (returning `[]`); the Bollinger and Stochastic blocks are
null-guarded in the source (`bb && ...`, `stoch && ...`). -/
noncomputable def prepareFeaturesFE (prices : List ℚ) : List (JNum ℝ) :=
  if prices.length < 100 then [] else
  let jp := prices.map JNum.num
  let rsi := calculateRSI jp 14
  match calculateMACD jp 12 26 9 with
  | none => []
  | some macd =>
    let sma20 := calculateSMA jp 20
    let ema20 := calculateEMA jp 20
    let bb := calculateBollingerBands jp 20 2
    let stoch := calculateStochasticOscillator jp 14
    let base := [castQR (jget rsi (rsi.length - 1)),
                 castQR (jget macd.MACD (macd.MACD.length - 1)),
                 castQR (jget macd.signal (macd.signal.length - 1)),
                 castQR (jget sma20 (sma20.length - 1)),
                 castQR (jget ema20 (ema20.length - 1))]
    let bbFeatures := match bb with
      | some bbList =>
        if 0 < bbList.length then
          let lastBB := bbList.getD (bbList.length - 1) ⟨.undefined, .undefined, .undefined⟩
          [lastBB.upper, lastBB.middle, lastBB.lower,
           jdiv (jsub (castQR (.num (prices.getD (prices.length - 1) 0))) lastBB.lower)
             (jsub lastBB.upper lastBB.lower)]
        else []
      | none => []
    let stochFeatures := match stoch with
      | some st =>
        if 0 < st.k.length && 0 < st.d.length then
          [castQR (jget st.k (st.k.length - 1)), castQR (jget st.d (st.d.length - 1))]
        else []
      | none => []
    let pat := analyzeConsecutivePatterns prices
    let patFeatures : List (JNum ℝ) :=
      [.num (pat.consecutiveBulls : ℝ), .num (pat.consecutiveBears : ℝ),
       .num (pat.bullishProbability : ℝ), .num (pat.bearishProbability : ℝ)]
    let mov := analyzePriceMovement prices
    let movFeatures : List (JNum ℝ) :=
      [castQR mov.momentum, mov.volatility,
       .num (match mov.trend with | .bullish => 1 | .bearish => -1 | .neutral => 0)]
    let rev := detectReversalPatterns prices
    let revFeatures : List (JNum ℝ) :=
      [.num (match rev.pattern with
        | .potentialBullishReversal => 1
        | .potentialBearishReversal => -1
        | .noReversal => 0),
       .num (rev.strength : ℝ)]
    (base ++ bbFeatures ++ stochFeatures ++ patFeatures ++ movFeatures ++ revFeatures).map
      sanitizeFeature

/-!
## `prediction.js`
-/

/-- The configuration surface read by `prediction.js` from `config.js`
(environment values, modelled as real parameters): bet bounds, confidence
score bounds, and the bull/bear decision thresholds. -/
structure PredConfig where
  betMin : ℝ
  betMax : ℝ
  minConfidence : ℝ
  maxConfidence : ℝ
  bullConfidence : ℝ
  bearConfidence : ℝ

/-- The indicator record passed to `calculateConfidence` (only the fields
the scorer reads). -/
structure ConfidenceInputs where
  RSI : JNum ℚ
  MACD : JNum ℚ
  signalLine : JNum ℚ
  SMA20 : JNum ℚ
  EMA20 : JNum ℚ
  bollingerUpper : JNum ℝ
  bollingerLower : JNum ℝ
  stochasticK : JNum ℚ
  price : JNum ℚ

/-- The body of `calculateConfidence` (`prediction.js`): the sum of the
five signed indicator contributions.  The second MACD crossover branch of
the source is unreachable (its condition is tested after its own negation)
and is reproduced as written. -/
noncomputable def calculateConfidence (ind : ConfidenceInputs) : ℤ :=
  let s1 : ℤ := if jlt ind.RSI (.num 30) then 2
    else if jlt ind.RSI (.num 50) then 1
    else if jgt ind.RSI (.num 70) then -2
    else if jgt ind.RSI (.num 50) then -1
    else 0
  let s2 : ℤ := if jgt ind.MACD ind.signalLine then 2
    else if jgt ind.MACD (jsub ind.signalLine (.num (1/100))) &&
        jlt ind.MACD (jadd ind.signalLine (.num (1/100))) then 1
    else if jlt ind.MACD ind.signalLine then -2
    else if jgt ind.MACD (jsub ind.signalLine (.num (1/100))) &&
        jlt ind.MACD (jadd ind.signalLine (.num (1/100))) then -1
    else 0
  let s3 : ℤ := if jlt (castQR ind.price) ind.bollingerLower then 1
    else if jgt (castQR ind.price) ind.bollingerUpper then -1
    else 0
  let s4 : ℤ := if jlt ind.stochasticK (.num 20) then 1
    else if jgt ind.stochasticK (.num 80) then -1
    else 0
  let s5 : ℤ := if jgt ind.price ind.SMA20 && jgt ind.price ind.EMA20 then 1
    else if jlt ind.price ind.SMA20 && jlt ind.price ind.EMA20 then -1
    else 0
  s1 + s2 + s3 + s4 + s5

/-- The body of `mapScoreToBetSize` (`prediction.js`): clamp the score
into `[minConfidence, maxConfidence]`, apply the sigmoid
`1 / (1 + exp(-clamped))`, and scale into `[betMin, betMax]`; the final
`isNaN` guard falls back to `betMin`.  For real-valued configuration the
bet is either a finite number or `NaN`, so the fallback branch is exactly
the `isNaN` branch of the source. -/
noncomputable def mapScoreToBetSize (cfg : PredConfig) (score : JNum ℝ) : ℝ :=
  let clampedScore := jmax (.num cfg.minConfidence) (jmin (.num cfg.maxConfidence) score)
  let normalized := jdiv (.num 1) (jadd (.num 1) (jexp (jneg clampedScore)))
  let betSize := jadd (.num cfg.betMin) (jmul normalized (jsub (.num cfg.betMax) (.num cfg.betMin)))
  match betSize with
  | .num b => b
  | _ => cfg.betMin

/-- The decision record returned by `getPrediction`: a direction
(`null`, `'bull'` or `'bear'`) and a bet size. -/
structure Decision where
  prediction : Option Direction
  betSize : ℝ

/-- The body of `getPrediction` (`prediction.js`).  The external
TensorFlow ensemble (train + predict) is modelled by its result
`rf : Except Unit ℝ`: `.error` means some step of it threw, which the
surrounding `try/catch` converts into `{prediction: null, betSize:
minBet}`.  A `null` from `calculateMACD`, `calculateBollingerBands` or
`calculateStochasticOscillator` would make the subsequent property access
throw, landing in the same catch; those arms are modelled explicitly.
The two `features.length === 0` branches return `{prediction: 'bear',
betSize: minBet}` as in the source (they are unreachable, because the
100-price guard already implies non-empty feature lists). -/
noncomputable def getPrediction (cfg : PredConfig) (priceBuffer : List ℚ)
    (rf : Except Unit ℝ) : Decision :=
  if priceBuffer.length < 100 then ⟨none, cfg.betMin⟩ else
  let features := prepareFeaturesRF priceBuffer
  if features = [] then ⟨some .bear, cfg.betMin⟩ else
  let _labels := prepareLabelsRF priceBuffer
  let latestFeatures := prepareFeaturesRF (jsSlice priceBuffer (-51) (priceBuffer.length : ℤ))
  if latestFeatures = [] then ⟨some .bear, cfg.betMin⟩ else
  match rf with
  | .error _ => ⟨none, cfg.betMin⟩
  | .ok rfPrediction =>
    let jp := priceBuffer.map JNum.num
    let rsi := calculateRSI jp 14
    match calculateMACD jp 12 26 9 with
    | none => ⟨none, cfg.betMin⟩
    | some macd =>
      let sma20 := calculateSMA jp 20
      let ema20 := calculateEMA jp 20
      match calculateBollingerBands jp 20 2, calculateStochasticOscillator jp 14 with
      | some bb, some stoch =>
        let lastPrice : JNum ℚ := jget jp (jp.length - 1)
        let lastBB := bb.getD (bb.length - 1) ⟨.undefined, .undefined, .undefined⟩
        let inputs : ConfidenceInputs :=
          { RSI := if 0 < rsi.length then jget rsi (rsi.length - 1) else .num 50
            MACD := if 0 < macd.MACD.length then jget macd.MACD (macd.MACD.length - 1) else .num 0
            signalLine := if 0 < macd.signal.length then jget macd.signal (macd.signal.length - 1)
              else .num 0
            SMA20 := if 0 < sma20.length then jget sma20 (sma20.length - 1) else lastPrice
            EMA20 := if 0 < ema20.length then jget ema20 (ema20.length - 1) else lastPrice
            bollingerUpper := if 0 < bb.length then lastBB.upper else .num 0
            bollingerLower := if 0 < bb.length then lastBB.lower else .num 0
            stochasticK := if 0 < stoch.k.length then jget stoch.k (stoch.k.length - 1) else .num 50
            price := lastPrice }
        let technicalScore := calculateConfidence inputs
        let combinedScore := (rfPrediction - 1/2) * 5 + (technicalScore : ℝ) * (1/2)
        let confidenceScore := combinedScore / 2
        let betSize := mapScoreToBetSize cfg (.num |confidenceScore|)
        let dir : Option Direction :=
          if cfg.bullConfidence < confidenceScore then some .bull
          else if confidenceScore < cfg.bearConfidence then some .bear
          else none
        ⟨dir, betSize⟩
      | _, _ => ⟨none, cfg.betMin⟩

/-!
## Reference definition for claim C6

For the refinement comparison in C6 only, the Wilder RSI is also written
out exactly as the specification words it; `calculateRSI` above is the
translation of the source.
-/

/-- Follows the wording of the specification (claim C6): seed the average
gain/loss from the *first* `period` deltas of the sequence, then update
`avg = (avg * (period - 1) + delta) / period` for each subsequent delta in
order, emitting `100` whenever the average loss is zero and
`100 - 100 / (1 + avgGain / avgLoss)` otherwise. -/
def specWilderRSI (prices : List ℚ) (period : ℕ) : List ℚ :=
  if prices.length < period + 1 then [] else
  let deltas := (List.range (prices.length - 1)).map (fun (i : ℕ) =>
    prices.getD (i + 1) 0 - prices.getD i 0)
  let gainOf := fun (c : ℚ) => if 0 < c then c else 0
  let lossOf := fun (c : ℚ) => if c < 0 then -c else 0
  let avgGain0 := ((deltas.take period).map gainOf).sum / period
  let avgLoss0 := ((deltas.take period).map lossOf).sum / period
  let rsiOf := fun (aG aL : ℚ) => if aL = 0 then 100 else 100 - 100 / (1 + aG / aL)
  let step := fun (st : ℚ × ℚ × List ℚ) (c : ℚ) =>
    let aG := (st.1 * ((period : ℚ) - 1) + gainOf c) / period
    let aL := (st.2.1 * ((period : ℚ) - 1) + lossOf c) / period
    (aG, aL, st.2.2 ++ [rsiOf aG aL])
  ((deltas.drop period).foldl step (avgGain0, avgLoss0, [rsiOf avgGain0 avgLoss0])).2.2

/-!
## Claim C1: recorded outcome and profit of a bet
-/

/-- Claim C1, counterexample: when the round is a tie
(`endingPrice = startingPrice`), a `bear` bet is recorded as a `win` even
though the direction matches no realized price move, refuting the
claimed equivalence. -/
theorem roundOutcome_tie_counterexample :
    roundOutcome Direction.bear 100 100 = Outcome.win ∧
    ¬((Direction.bear = Direction.bull ∧ (100 : ℚ) < 100) ∨
      (Direction.bear = Direction.bear ∧ (100 : ℚ) < 100)) := by
  constructor
  · simp [roundOutcome]
  · simp

/-- Claim C1, amended: the recorded outcome is `win` iff the direction is
`bull` and the price strictly rose, or the direction is `bear` and the
price did not strictly rise (ties count as bear wins); the recorded
profit is `stake * 0.95` on a win and `-stake` on a loss; in particular
for `startingPrice = 100, endingPrice = 110` a `bull` bet of `0.01` wins
`0.0095` and a `bear` bet of `0.01` loses `0.01`. -/
theorem roundOutcome_roundProfit_spec (dir : Direction)
    (startingPrice endingPrice stake : ℚ) (hstake : 0 < stake) :
    (roundOutcome dir startingPrice endingPrice = Outcome.win ↔
      (dir = Direction.bull ∧ startingPrice < endingPrice) ∨
      (dir = Direction.bear ∧ endingPrice ≤ startingPrice)) ∧
    roundProfit Outcome.win stake = stake * (95 / 100) ∧
    roundProfit Outcome.lose stake = -stake ∧
    roundOutcome Direction.bull 100 110 = Outcome.win ∧
    roundProfit (roundOutcome Direction.bull 100 110) (1 / 100) = 95 / 10000 ∧
    roundOutcome Direction.bear 100 110 = Outcome.lose ∧
    roundProfit (roundOutcome Direction.bear 100 110) (1 / 100) = -(1 / 100) := by
  refine ⟨?_, by simp [roundProfit], by simp [roundProfit],
    by decide,
    by rw [(by decide : roundOutcome Direction.bull 100 110 = Outcome.win)]
       simp only [roundProfit, if_pos]
       norm_num,
    by decide,
    by rw [(by decide : roundOutcome Direction.bear 100 110 = Outcome.lose)]
       simp only [roundProfit, if_neg (by decide : ¬(Outcome.lose = Outcome.win))]⟩
  cases dir
  · by_cases h : startingPrice < endingPrice <;> simp [roundOutcome, h]
  · by_cases h : startingPrice < endingPrice
    · simp [roundOutcome, h, not_le.mpr h]
    · simp [roundOutcome, h, not_lt.mp h]

/-- Claim C1, witness: the amended theorem applied at the concrete bull
scenario of the specification. -/
theorem roundOutcome_roundProfit_spec_witness :
    (0 : ℚ) < 1 / 100 ∧
    roundOutcome Direction.bull 100 110 = Outcome.win ∧
    roundProfit (roundOutcome Direction.bull 100 110) (1 / 100) = 95 / 10000 :=
  ⟨by norm_num,
   (roundOutcome_roundProfit_spec Direction.bull 100 110 (1 / 100) (by norm_num)).2.2.2.1,
   (roundOutcome_roundProfit_spec Direction.bull 100 110 (1 / 100) (by norm_num)).2.2.2.2.1⟩

/-!
## Claim C2: the short-window guard of `getPrediction`
-/

/-- Claim C2, counterexample: with a configured minimum bet of `1`, a
short price buffer yields stake `1`, not the claimed stake `0`. -/
theorem getPrediction_short_counterexample :
    getPrediction ⟨1, 2, -5, 5, 1/2, -(1/2)⟩ [] (Except.ok (1/2)) ≠
      ⟨none, 0⟩ := by
  simp [getPrediction]

/-- Claim C2, amended: for every price sequence of length strictly less
than 100, `getPrediction` returns the no-bet decision with a `null`
direction and the *configured minimum stake* (not stake 0). -/
theorem getPrediction_short (cfg : PredConfig) (priceBuffer : List ℚ)
    (rf : Except Unit ℝ) (h : priceBuffer.length < 100) :
    getPrediction cfg priceBuffer rf = ⟨none, cfg.betMin⟩ := by
  simp [getPrediction, h]

/-- Claim C2, witness: the amended theorem applied to the empty buffer. -/
theorem getPrediction_short_witness :
    ([] : List ℚ).length < 100 ∧
    getPrediction ⟨0, 1, -5, 5, 1/2, -(1/2)⟩ [] (Except.ok 0) = ⟨none, 0⟩ :=
  ⟨by norm_num, getPrediction_short ⟨0, 1, -5, 5, 1/2, -(1/2)⟩ [] (Except.ok 0) (by norm_num)⟩

/-!
## Claim C9: worker partitioning of the round space
-/

/-- The ceiling split covers the whole range: `totalRounds ≤ p * roundsPerWorker`. -/
theorem le_mul_roundsPerWorker (t p : ℕ) (hp : 0 < p) : t ≤ p * roundsPerWorker t p := by
  rcases Nat.eq_zero_or_pos t with ht | ht
  · simp [ht]
  · unfold roundsPerWorker
    have h1 := Nat.div_add_mod (t + p - 1) p
    have h2 : (t + p - 1) % p < p := Nat.mod_lt _ hp
    generalize he : p * ((t + p - 1) / p) = e at h1 ⊢
    omega

/-- Claim C9: on a fresh run the coordinator computes
`P = max(1, availableParallelism - 1)` partitions; they are exactly
`[i * rpw, min((i+1) * rpw, totalRounds))` for `i < P`, each ends within
`[0, totalRounds)`, every round offset below `totalRounds` falls in
exactly one partition, and for `totalRounds = 1000` with 5 CPUs (P = 4)
the partitions are `[0,250), [250,500), [500,750), [750,1000)`. -/
theorem partitions_cover (cpus totalRounds : ℕ) :
    1 ≤ numWorkerThreads cpus ∧
    (partitions totalRounds (numWorkerThreads cpus)).length = numWorkerThreads cpus ∧
    (∀ i, i < numWorkerThreads cpus →
      (partitions totalRounds (numWorkerThreads cpus)).get? i =
        some (i * roundsPerWorker totalRounds (numWorkerThreads cpus),
          min ((i + 1) * roundsPerWorker totalRounds (numWorkerThreads cpus)) totalRounds)) ∧
    (∀ q ∈ partitions totalRounds (numWorkerThreads cpus), q.2 ≤ totalRounds) ∧
    (∀ x, x < totalRounds → ∃! i, i < numWorkerThreads cpus ∧
      i * roundsPerWorker totalRounds (numWorkerThreads cpus) ≤ x ∧
      x < min ((i + 1) * roundsPerWorker totalRounds (numWorkerThreads cpus)) totalRounds) ∧
    partitions 1000 (numWorkerThreads 5) = [(0, 250), (250, 500), (500, 750), (750, 1000)] := by
  refine ⟨le_max_left 1 _, by simp [partitions], ?_, ?_, ?_, by decide⟩
  · intro i hi
    simp [partitions, List.get?_map, List.get?_range, hi]
  · intro q hq
    simp only [partitions, List.mem_map, List.mem_range] at hq
    obtain ⟨i, _, rfl⟩ := hq
    exact min_le_right _ _
  · intro x hx
    set P := numWorkerThreads cpus with hP
    have hp : 0 < P := le_max_left 1 _
    set q := roundsPerWorker totalRounds P with hq
    have hcov : totalRounds ≤ P * q := le_mul_roundsPerWorker totalRounds P hp
    have hq0 : 0 < q := by
      rcases Nat.eq_zero_or_pos q with h | h
      · rw [h, Nat.mul_zero] at hcov
        omega
      · exact h
    refine ⟨x / q, ⟨?_, ?_, ?_⟩, ?_⟩
    · exact (Nat.div_lt_iff_lt_mul hq0).mpr (lt_of_lt_of_le hx hcov)
    · exact Nat.div_mul_le_self x q
    · refine lt_min ?_ hx
      have h1 := Nat.div_add_mod x q
      have h2 : x % q < q := Nat.mod_lt _ hq0
      have h3 : (x / q + 1) * q = q * (x / q) + q := by ring
      rw [h3]
      omega
    · rintro j ⟨hj, hj1, hj2⟩
      have hj3 : x < (j + 1) * q := lt_of_lt_of_le hj2 (min_le_left _ _)
      exact (Nat.div_eq_of_lt_le hj1 hj3).symm

/-- Claim C9, witness: offset 999 of a 1000-round backtest over 5 CPUs
lies in exactly one partition. -/
theorem partitions_cover_witness :
    999 < 1000 ∧ ∃! i, i < numWorkerThreads 5 ∧
      i * roundsPerWorker 1000 (numWorkerThreads 5) ≤ 999 ∧
      999 < min ((i + 1) * roundsPerWorker 1000 (numWorkerThreads 5)) 1000 :=
  ⟨by norm_num, (partitions_cover 5 1000).2.2.2.2.1 999 (by norm_num)⟩

/-!
## Claim C8: insufficient-data sentinels of the indicator functions
-/

/-- A fold whose step appends one element to the accumulated list leaves
any previously accumulated prefix in place. -/
theorem foldl_acc_grows {σ β ι : Type} (f : σ → ι → σ) (acc : σ → List β)
    (h : ∀ st i, ∃ v, acc (f st i) = acc st ++ [v]) (is : List ι) (st : σ) :
    ∃ tl, acc (is.foldl f st) = acc st ++ tl := by
  induction is generalizing st with
  | nil => exact ⟨[], by simp⟩
  | cons i is ih =>
    obtain ⟨v, hv⟩ := h st i
    obtain ⟨tl, htl⟩ := ih (f st i)
    exact ⟨v :: tl, by simp [htl, hv]⟩

/-- A fold whose step appends one element per input grows the accumulated
list by exactly the input length. -/
theorem foldl_acc_length {σ β ι : Type} (f : σ → ι → σ) (acc : σ → List β)
    (h : ∀ st i, ∃ v, acc (f st i) = acc st ++ [v]) (is : List ι) (st : σ) :
    (acc (is.foldl f st)).length = (acc st).length + is.length := by
  induction is generalizing st with
  | nil => simp
  | cons i is ih =>
    obtain ⟨v, hv⟩ := h st i
    simp only [List.foldl_cons, ih (f st i), hv]
    simp
    omega

/-- `calculateEMA` emits one value per window end position. -/
theorem calculateEMA_length (prices : List (JNum α)) (period : ℕ)
    (h : period ≤ prices.length) :
    (calculateEMA prices period).length = prices.length - period + 1 := by
  have hlt : ¬ prices.length < period := not_lt.mpr h
  simp only [calculateEMA, if_neg hlt]
  have h2 := foldl_acc_length (emaStep prices period) id (fun st i => ⟨_, rfl⟩)
    (List.range' period (prices.length - period))
    [jdiv (jsum (jsSlice prices 0 (period : ℤ))) (.num (period : α))]
  simp only [id_eq, List.length_cons, List.length_nil, List.length_range'] at h2
  rw [h2]
  omega

/-- Claim C8, counterexample: with a fast period larger than the slow
period, `calculateMACD` returns its sentinel on an input of length
`slow + signal` (21), although the claim states the sentinel appears
exactly below that length. -/
theorem calculateMACD_sentinel_counterexample :
    calculateMACD (List.replicate 21 (JNum.num (1 : ℚ))) 26 12 9 = none ∧
    ¬ (List.replicate 21 (JNum.num (1 : ℚ))).length < 12 + 9 := by
  constructor
  · simp [calculateMACD]
  · simp

/-- Claim C8, amended: each indicator returns its insufficient-data
sentinel exactly when the input is below its minimum — `period + 1` for
RSI, `max(fast, slow) + signal` (not `slow + signal`) for MACD, `period`
for SMA, EMA, Bollinger bands and the stochastic oscillator — and a
non-sentinel value at or above it.  (All embedded functions are total, so
none of them can throw.) -/
theorem indicator_sentinels :
    (∀ (prices : List (JNum ℚ)) (period : ℕ),
      calculateRSI prices period = [] ↔ prices.length < period + 1) ∧
    (∀ (prices : List (JNum ℚ)) (f s g : ℕ),
      calculateMACD prices f s g = none ↔ prices.length < max f s + g) ∧
    (∀ (prices : List (JNum ℚ)) (period : ℕ),
      calculateSMA prices period = [] ↔ prices.length < period) ∧
    (∀ (prices : List (JNum ℚ)) (period : ℕ),
      calculateEMA prices period = [] ↔ prices.length < period) ∧
    (∀ (prices : List (JNum ℚ)) (period : ℕ) (mult : ℚ),
      calculateBollingerBands prices period mult = none ↔ prices.length < period) ∧
    (∀ (prices : List (JNum ℚ)) (period : ℕ),
      calculateStochasticOscillator prices period = none ↔ prices.length < period) := by
  refine ⟨?_, ?_, ?_, ?_, ?_, ?_⟩
  · intro prices period
    constructor
    · intro h
      by_contra hlen
      simp only [calculateRSI, if_neg hlen] at h
      obtain ⟨tl, htl⟩ := foldl_acc_grows (rsiStep prices period)
        (fun (st : JNum ℚ × JNum ℚ × List (JNum ℚ)) => st.2.2)
        (fun st i => ⟨_, rfl⟩) (List.range' (period + 1) (prices.length - (period + 1))) _
      rw [htl] at h
      simp at h
    · intro h
      simp [calculateRSI, h]
  · intro prices f s g
    constructor
    · intro h
      by_contra hlen
      simp [calculateMACD, hlen] at h
    · intro h
      simp [calculateMACD, h]
  · intro prices period
    constructor
    · intro h
      by_contra hlen
      simp only [calculateSMA, if_neg hlen, List.map_eq_nil, List.range'_eq_nil] at h
      omega
    · intro h
      simp [calculateSMA, h]
  · intro prices period
    constructor
    · intro h
      by_contra hlen
      simp only [calculateEMA, if_neg hlen] at h
      obtain ⟨tl, htl⟩ := foldl_acc_grows (emaStep prices period) id
        (fun st i => ⟨_, rfl⟩) (List.range' period (prices.length - period)) _
      simp only [id_eq] at htl
      rw [htl] at h
      simp at h
    · intro h
      simp [calculateEMA, h]
  · intro prices period mult
    constructor
    · intro h
      by_contra hlen
      simp [calculateBollingerBands, hlen] at h
    · intro h
      simp [calculateBollingerBands, h]
  · intro prices period
    constructor
    · intro h
      by_contra hlen
      simp [calculateStochasticOscillator, hlen] at h
    · intro h
      simp [calculateStochasticOscillator, h]

/-!
## Claim C10: feature vectors contain only non-NaN numbers
-/

/-- Every sanitised feature passes the numeric check: it is a JavaScript
number and is not `NaN`. -/
theorem sanitizeFeature_ok (f : JNum ℝ) :
    (jsTypeofIsNumber (sanitizeFeature f) && !jsGlobalIsNaN (sanitizeFeature f)) = true := by
  cases f <;> rfl

/-- Claim C10: every element of every vector produced by
`featureEngineering.js::prepareFeatures` is a number and is not `NaN`;
any non-number or `NaN` entry is replaced by `0` before the vector is
returned. -/
theorem prepareFeaturesFE_numeric (prices : List ℚ) :
    (prepareFeaturesFE prices).all
      (fun f => jsTypeofIsNumber f && !jsGlobalIsNaN f) = true := by
  simp only [prepareFeaturesFE]
  split
  · rfl
  · split
    · rfl
    · rw [List.all_map]
      refine List.all_eq_true.mpr ?_
      intro x _
      exact sanitizeFeature_ok x

/-!
## Claim C3: fail-safe no-op decisions of `getPrediction`
-/

/-- The tail slice `slice(-k)` of the JavaScript source keeps the last
`min k length` elements. -/
theorem jsSlice_neg_length {β : Type} (l : List β) (k : ℕ) (hk : 0 < k) :
    (jsSlice l (-(k : ℤ)) (l.length : ℤ)).length = min k l.length := by
  simp only [jsSlice, List.length_take, List.length_drop]
  have hk2 : -(k : ℤ) < 0 := by omega
  rw [if_pos hk2, if_neg (by omega : ¬ (l.length : ℤ) < 0)]
  rcases le_or_lt (k : ℤ) (l.length : ℤ) with h | h
  · rw [max_eq_left (by omega), min_self]
    omega
  · rw [max_eq_right (by omega), min_self]
    omega

/-- `randomForests.js::prepareFeatures` returns the empty feature list
exactly when there are at most 50 prices (fewer than 50 hits the guard;
exactly 50 makes the window loop run zero times). -/
theorem prepareFeaturesRF_eq_nil (prices : List ℚ) :
    prepareFeaturesRF prices = [] ↔ prices.length ≤ 50 := by
  simp only [prepareFeaturesRF]
  split
  · simp
    omega
  · split
    · simp
      omega
    · simp only [List.map_eq_nil, List.range_eq_nil]
      omega

/-- Claim C3: whenever feature preparation yields an empty feature list,
and whenever the external predictor throws, `getPrediction` returns the
fail-safe decision `{prediction: null, betSize: minBet}` — it never
returns a direction on these paths and never propagates the error.  (The
`'bear'` fallback branches of the source are unreachable: an empty
feature list forces a buffer of at most 50 prices, which the 100-price
guard has already rejected.) -/
theorem getPrediction_failSafe (cfg : PredConfig) (priceBuffer : List ℚ)
    (rf : Except Unit ℝ) :
    (prepareFeaturesRF priceBuffer = [] →
      getPrediction cfg priceBuffer rf = ⟨none, cfg.betMin⟩) ∧
    getPrediction cfg priceBuffer (Except.error ()) = ⟨none, cfg.betMin⟩ := by
  constructor
  · intro h
    have hlen : priceBuffer.length ≤ 50 := (prepareFeaturesRF_eq_nil _).mp h
    have h100 : priceBuffer.length < 100 := by omega
    simp [getPrediction, h100]
  · by_cases h : priceBuffer.length < 100
    · simp [getPrediction, h]
    · have hfeat : ¬ prepareFeaturesRF priceBuffer = [] := by
        rw [prepareFeaturesRF_eq_nil]
        omega
      have hlat : ¬ prepareFeaturesRF
          (jsSlice priceBuffer (-51) (priceBuffer.length : ℤ)) = [] := by
        rw [prepareFeaturesRF_eq_nil]
        rw [(by norm_num : (-51 : ℤ) = -((51 : ℕ) : ℤ)), jsSlice_neg_length _ _ (by norm_num)]
        omega
      simp [getPrediction, h, hfeat, hlat]

/-- Claim C3, witness: the empty-feature branch applied to the empty
buffer (whose feature list is empty). -/
theorem getPrediction_failSafe_witness :
    prepareFeaturesRF [] = [] ∧
    getPrediction ⟨0, 1, -5, 5, 1/2, -(1/2)⟩ [] (Except.ok 0) = ⟨none, 0⟩ :=
  ⟨(prepareFeaturesRF_eq_nil []).mpr (by norm_num),
   (getPrediction_failSafe ⟨0, 1, -5, 5, 1/2, -(1/2)⟩ [] (Except.ok 0)).1
     ((prepareFeaturesRF_eq_nil []).mpr (by norm_num))⟩

/-!
## Claim C4: the bet sizer
-/

@[simp] theorem jmin_num_num (a b : α) : jmin (.num a) (.num b) = .num (min a b) := rfl

@[simp] theorem jmax_num_num (a b : α) : jmax (.num a) (.num b) = .num (max a b) := rfl

@[simp] theorem jexp_num (a : ℝ) : jexp (.num a) = .num (Real.exp a) := rfl

/-- On a finite score the bet sizer is exactly
`betMin + sigmoid(clamp(score)) * (betMax - betMin)`. -/
theorem mapScoreToBetSize_num (cfg : PredConfig) (x : ℝ) :
    mapScoreToBetSize cfg (.num x) =
      cfg.betMin +
        1 / (1 + Real.exp (-(max cfg.minConfidence (min cfg.maxConfidence x)))) *
          (cfg.betMax - cfg.betMin) := by
  have hpos : (0 : ℝ) <
      1 + Real.exp (-(max cfg.minConfidence (min cfg.maxConfidence x))) := by positivity
  simp only [mapScoreToBetSize, jmin_num_num, jmax_num_num, jneg_num, jexp_num,
    jadd_num_num, jsub_num_num]
  rw [jdiv_num_num _ _ (ne_of_gt hpos)]
  simp only [jmul_num_num, jadd_num_num]

/-- On a `NaN` score the bet sizer falls back to the configured minimum
bet (the NaN propagates through clamp, sigmoid and scaling into the final
`isNaN` guard). -/
theorem mapScoreToBetSize_nan (cfg : PredConfig) :
    mapScoreToBetSize cfg .nan = cfg.betMin := rfl

/-- Claim C4: for finite `betMin ≤ betMax` and
`minConfidence ≤ maxConfidence`, the bet sizer is monotone non-decreasing
in the score over the clamp range, always lands in
`[betMin, betMax]` for every finite score, maps `NaN` to `betMin`, and
factors through clamping (the clamp is applied before the sigmoid). -/
theorem mapScoreToBetSize_spec (cfg : PredConfig)
    (hbet : cfg.betMin ≤ cfg.betMax)
    (hconf : cfg.minConfidence ≤ cfg.maxConfidence) :
    (∀ x y : ℝ, cfg.minConfidence ≤ x → x ≤ y → y ≤ cfg.maxConfidence →
      mapScoreToBetSize cfg (.num x) ≤ mapScoreToBetSize cfg (.num y)) ∧
    (∀ x : ℝ, cfg.betMin ≤ mapScoreToBetSize cfg (.num x) ∧
      mapScoreToBetSize cfg (.num x) ≤ cfg.betMax) ∧
    mapScoreToBetSize cfg .nan = cfg.betMin ∧
    (∀ x : ℝ, mapScoreToBetSize cfg (.num x) =
      mapScoreToBetSize cfg (.num (max cfg.minConfidence (min cfg.maxConfidence x)))) := by
  have sig_pos : ∀ y : ℝ, 0 < 1 / (1 + Real.exp (-y)) := fun y => by positivity
  have sig_lt_one : ∀ y : ℝ, 1 / (1 + Real.exp (-y)) < 1 := fun y => by
    rw [div_lt_one (by positivity)]
    linarith [Real.exp_pos (-y)]
  have sig_mono : ∀ a b : ℝ, a ≤ b →
      1 / (1 + Real.exp (-a)) ≤ 1 / (1 + Real.exp (-b)) := fun a b hab => by
    apply one_div_le_one_div_of_le (by positivity)
    have := Real.exp_le_exp.mpr (neg_le_neg hab)
    linarith
  have hd : 0 ≤ cfg.betMax - cfg.betMin := sub_nonneg.mpr hbet
  refine ⟨?_, ?_, mapScoreToBetSize_nan cfg, ?_⟩
  · intro x y hx hxy hy
    rw [mapScoreToBetSize_num, mapScoreToBetSize_num]
    have hc : max cfg.minConfidence (min cfg.maxConfidence x) ≤
        max cfg.minConfidence (min cfg.maxConfidence y) :=
      max_le_max le_rfl (min_le_min le_rfl hxy)
    have := mul_le_mul_of_nonneg_right (sig_mono _ _ hc) hd
    linarith
  · intro x
    rw [mapScoreToBetSize_num]
    constructor
    · have h1 := sig_pos (max cfg.minConfidence (min cfg.maxConfidence x))
      nlinarith
    · have h1 := sig_lt_one (max cfg.minConfidence (min cfg.maxConfidence x))
      have h2 := mul_le_mul_of_nonneg_right (le_of_lt h1) hd
      linarith
  · intro x
    rw [mapScoreToBetSize_num, mapScoreToBetSize_num]
    have hc1 : max cfg.minConfidence (min cfg.maxConfidence x) ≤ cfg.maxConfidence :=
      max_le hconf (min_le_left _ _)
    rw [min_eq_right hc1, max_eq_right (le_max_left _ _)]

/-- Claim C4, witness: the theorem applied at the configuration
`betMin = 0, betMax = 1, minConfidence = -5, maxConfidence = 5`: the NaN
fallback and the bounds at score `0`. -/
theorem mapScoreToBetSize_spec_witness :
    mapScoreToBetSize ⟨0, 1, -5, 5, 1/2, -(1/2)⟩ JNum.nan = 0 ∧
    (0 : ℝ) ≤ mapScoreToBetSize ⟨0, 1, -5, 5, 1/2, -(1/2)⟩ (.num 0) ∧
    mapScoreToBetSize ⟨0, 1, -5, 5, 1/2, -(1/2)⟩ (.num 0) ≤ 1 :=
  ⟨(mapScoreToBetSize_spec ⟨0, 1, -5, 5, 1/2, -(1/2)⟩ (by norm_num) (by norm_num)).2.2.1,
   ((mapScoreToBetSize_spec ⟨0, 1, -5, 5, 1/2, -(1/2)⟩ (by norm_num) (by norm_num)).2.1 0).1,
   ((mapScoreToBetSize_spec ⟨0, 1, -5, 5, 1/2, -(1/2)⟩ (by norm_num) (by norm_num)).2.1 0).2⟩

/-!
## Claim C7: the MACD line is misaligned and contains NaN
-/

/-- Projects the `MACD` line out of a `calculateMACD` result (`[]` for the
`null` sentinel). -/
def macdLineOf : Option (MACDResult ℚ) → List (JNum ℚ)
  | none => []
  | some r => r.MACD

/-- Claim C7, failing input: on 35 constant prices (the minimum length
for the default periods 12/26/9), the MACD line produced by
`calculateMACD` contains `NaN`: it maps over the whole fast EMA (24
entries) while the slow EMA has only 10, so the tail entries subtract
`undefined`.  This refutes the claim that every element is a
`fastEMA - slowEMA` difference at a shared price position with no NaN. -/
theorem calculateMACD_misaligned_nan :
    JNum.nan ∈ macdLineOf (calculateMACD (List.replicate 35 (JNum.num (1 : ℚ))) 12 26 9) := by
  have hlen : (List.replicate 35 (JNum.num (1 : ℚ))).length = 35 := by simp
  have hguard : ¬ (List.replicate 35 (JNum.num (1 : ℚ))).length < max 12 26 + 9 := by
    rw [hlen]
    norm_num
  have hf : (calculateEMA (List.replicate 35 (JNum.num (1 : ℚ))) 12).length = 24 := by
    rw [calculateEMA_length _ _ (by rw [hlen]; norm_num), hlen]
  have hs : (calculateEMA (List.replicate 35 (JNum.num (1 : ℚ))) 26).length = 10 := by
    rw [calculateEMA_length _ _ (by rw [hlen]; norm_num), hlen]
  simp only [calculateMACD, if_neg hguard, macdLineOf]
  rw [List.mem_map]
  refine ⟨23, ?_, ?_⟩
  · rw [List.mem_range, hf]
    norm_num
  · have h23 : jget (calculateEMA (List.replicate 35 (JNum.num (1 : ℚ))) 26) 23 = .undefined :=
      jget_of_le (by rw [hs]; norm_num)
    rw [h23]
    simp

/-!
## Claim C6: the RSI implementation deviates from Wilder smoothing
-/

/-- Indexing into a replicated list. -/
theorem jget_replicate {n i : ℕ} (x : JNum α) (h : i < n) :
    jget (List.replicate n x) i = x := by
  rw [jget_of_lt (by simpa using h)]
  simp

/-- Summing a list of zeros gives zero. -/
theorem jsum_replicate_zero (n : ℕ) :
    jsum (List.replicate n (JNum.num (0 : α))) = .num 0 := by
  induction n with
  | zero => rfl
  | succ k ih =>
    rw [List.replicate_succ, jsum, List.foldl_cons]
    have h0 : jadd (JNum.num (0 : α)) (.num 0) = .num 0 := by simp
    rw [h0]
    exact ih

/-- Claim C6, failing inputs: (1) on 100 identical prices with period 14
the first emitted RSI value is `NaN` (`0/0` in the unguarded seed), not
`100`; (2) on `[0, 1, 0]` with period 1 the emitted series differs from
the specified Wilder RSI (`specWilderRSI`), because the code seeds from
the *last* deltas instead of the first. -/
theorem calculateRSI_bug :
    (calculateRSI (List.replicate 100 (JNum.num (100 : ℚ))) 14).head? = some JNum.nan ∧
    calculateRSI (([0, 1, 0] : List ℚ).map JNum.num) 1 ≠
      (specWilderRSI [0, 1, 0] 1).map JNum.num := by
  constructor
  · have hguard : ¬ (List.replicate 100 (JNum.num (100 : ℚ))).length < 14 + 1 := by simp
    simp only [calculateRSI, if_neg hguard, List.length_replicate]
    have hch : (List.range 14).map (fun j =>
        jsub (jget (List.replicate 100 (JNum.num (100 : ℚ))) (100 - (j + 1)))
          (jget (List.replicate 100 (JNum.num (100 : ℚ))) (100 - (j + 1) - 1))) =
        List.replicate 14 (JNum.num 0) := by
      refine List.eq_replicate.mpr ⟨by simp, ?_⟩
      intro b hb
      rw [List.mem_map] at hb
      obtain ⟨j, hj, rfl⟩ := hb
      rw [List.mem_range] at hj
      rw [jget_replicate _ (by omega), jget_replicate _ (by omega)]
      simp
    rw [hch]
    have hg : (List.replicate 14 (JNum.num (0 : ℚ))).map
        (fun c => if jgt c (.num 0) then c else .num 0) = List.replicate 14 (JNum.num 0) := by
      rw [List.map_replicate]
      simp
    have hl : (List.replicate 14 (JNum.num (0 : ℚ))).map
        (fun c => if jgt c (.num 0) then .num 0 else jabs c) =
        List.replicate 14 (JNum.num 0) := by
      rw [List.map_replicate]
      simp
    rw [hg, hl, jsum_replicate_zero]
    rw [jdiv_num_num _ _ (by norm_num : ((14 : ℕ) : ℚ) ≠ 0), zero_div]
    rw [jdiv_zero_zero]
    simp only [jadd_nan_right, jdiv_num_nan, jsub_nan_right]
    obtain ⟨tl, htl⟩ := foldl_acc_grows (rsiStep (List.replicate 100 (JNum.num (100 : ℚ))) 14)
      (fun (st : JNum ℚ × JNum ℚ × List (JNum ℚ)) => st.2.2)
      (fun st i => ⟨_, rfl⟩) (List.range' (14 + 1) (100 - (14 + 1)))
      (JNum.num 0, JNum.num 0, [JNum.nan])
    rw [htl]
    simp
  · have h1 : calculateRSI (([0, 1, 0] : List ℚ).map JNum.num) 1 =
        [JNum.num 0, JNum.num 0] := by
      norm_num [calculateRSI, rsiStep, jsum, jget, List.range_succ]
    have h2 : specWilderRSI [0, 1, 0] 1 = [100, 0] := by
      norm_num [specWilderRSI, List.range_succ]
    intro hEq
    rw [h1, h2] at hEq
    simp at hEq

/-!
## Claim C5: the circular price buffer
-/

/-- Reduced form of `a % c` when `a < 2c`. -/
theorem two_c_mod (a c : ℕ) (hc : 0 < c) (h : a < 2 * c) :
    a % c = if a < c then a else a - c := by
  split
  · exact Nat.mod_eq_of_lt (by assumption)
  · rw [Nat.mod_eq_sub_mod (by omega)]
    exact Nat.mod_eq_of_lt (by omega)

/-- `toArray` returns one element per stored entry. -/
theorem toArray_length (b : CircularBuffer) : b.toArray.length = b.length := by
  simp [CircularBuffer.toArray]

/-- Effect of one `push` on the chronological snapshot: the new element
is appended; if the buffer was full the oldest element is evicted. -/
theorem toArray_push (b : CircularBuffer) (x : ℚ) (hc : 0 < b.size)
    (hp : b.pointer < b.size) (hl : b.length ≤ b.size) :
    (b.push x).toArray =
      (if b.length < b.size then b.toArray else b.toArray.drop 1) ++ [x] := by
  by_cases hcase : b.length < b.size
  · rw [if_pos hcase]
    have hstart : ((b.pointer + 1) % b.size + b.size - (b.length + 1)) % b.size =
        (b.pointer + b.size - b.length) % b.size := by
      rcases Nat.lt_or_ge (b.pointer + 1) b.size with h1 | h1
      · rw [Nat.mod_eq_of_lt h1]
        congr 1
        omega
      · have hp1 : b.pointer + 1 = b.size := by omega
        rw [hp1, Nat.mod_self]
        rw [two_c_mod (b.pointer + b.size - b.length) b.size hc (by omega)]
        rw [if_neg (by omega)]
        rw [Nat.mod_eq_of_lt (by omega)]
        omega
    apply List.ext_getElem
    · simp [CircularBuffer.push, CircularBuffer.toArray, if_pos hcase]
    · intro i hi1 hi2
      have hi : i < b.length + 1 := by
        simpa [CircularBuffer.push, CircularBuffer.toArray, if_pos hcase] using hi1
      simp only [CircularBuffer.toArray, CircularBuffer.push, if_pos hcase,
        List.getElem_map, List.getElem_range, hstart]
      rw [Nat.mod_add_mod]
      rcases Nat.lt_or_ge i b.length with hil | hil
      · have hne : ¬ ((b.pointer + b.size - b.length + i) % b.size = b.pointer) := by
          rw [show b.pointer + b.size - b.length + i =
            b.pointer + (b.size - b.length + i) from by omega]
          rw [two_c_mod _ _ hc (by omega)]
          split <;> omega
        rw [if_neg hne]
        rw [List.getElem_append_left (by simpa [toArray_length] using hil)]
        simp only [CircularBuffer.toArray, List.getElem_map, List.getElem_range]
        rw [Nat.mod_add_mod]
      · have hieq : i = b.length := by omega
        have heq : (b.pointer + b.size - b.length + i) % b.size = b.pointer := by
          rw [hieq, show b.pointer + b.size - b.length + b.length =
            b.pointer + b.size from by omega]
          rw [Nat.add_mod_right, Nat.mod_eq_of_lt hp]
        rw [if_pos heq]
        rw [List.getElem_append_right (by simp [toArray_length]; omega)]
        simp [toArray_length, hieq]
  · have hfull : b.length = b.size := by omega
    rw [if_neg hcase]
    have hp1 : (b.pointer + 1) % b.size < b.size := Nat.mod_lt _ hc
    have hstart : ((b.pointer + 1) % b.size + b.size - b.length) % b.size =
        (b.pointer + 1) % b.size := by
      rw [hfull]
      rw [show (b.pointer + 1) % b.size + b.size - b.size = (b.pointer + 1) % b.size
        from by omega]
      exact Nat.mod_eq_of_lt hp1
    apply List.ext_getElem
    · simp only [CircularBuffer.toArray, CircularBuffer.push, if_neg hcase]
      simp [hfull]
      omega
    · intro i hi1 hi2
      have hi : i < b.length := by
        simpa [CircularBuffer.push, CircularBuffer.toArray, if_neg hcase] using hi1
      simp only [CircularBuffer.toArray, CircularBuffer.push, if_neg hcase,
        List.getElem_map, List.getElem_range, hstart]
      rw [Nat.mod_add_mod]
      rcases Nat.lt_or_ge i (b.length - 1) with hil | hil
      · have hne : ¬ ((b.pointer + 1 + i) % b.size = b.pointer) := by
          rw [show b.pointer + 1 + i = b.pointer + (1 + i) from by omega]
          rw [two_c_mod _ _ hc (by omega)]
          split <;> omega
        rw [if_neg hne]
        rw [List.getElem_append_left (by simp [toArray_length]; omega)]
        simp only [List.getElem_drop, CircularBuffer.toArray, List.getElem_map,
          List.getElem_range]
        rw [show b.pointer + b.size - b.length = b.pointer from by omega]
        rw [Nat.mod_add_mod]
        rw [show b.pointer + (1 + i) = b.pointer + 1 + i from by omega]
      · have hieq : i = b.length - 1 := by omega
        have heq : (b.pointer + 1 + i) % b.size = b.pointer := by
          rw [hieq, hfull]
          rw [show b.pointer + 1 + (b.size - 1) = b.pointer + b.size from by omega]
          rw [Nat.add_mod_right, Nat.mod_eq_of_lt hp]
        rw [if_pos heq]
        rw [List.getElem_append_right (by simp [toArray_length]; omega)]
        simp [toArray_length, hieq]

/-- State invariant of the circular buffer after pushing `xs` into a
fresh buffer of positive capacity `c`: the pointer wraps at `c`, the
length saturates at `c`, and the snapshot is exactly the last
`min xs.length c` pushed values in insertion order. -/
theorem pushAll_invariant (c : ℕ) (hc : 0 < c) (xs : List ℚ) :
    ((CircularBuffer.new c).pushAll xs).size = c ∧
    ((CircularBuffer.new c).pushAll xs).pointer < c ∧
    ((CircularBuffer.new c).pushAll xs).length = min xs.length c ∧
    ((CircularBuffer.new c).pushAll xs).toArray =
      xs.drop (xs.length - min xs.length c) := by
  induction xs using List.reverseRecOn with
  | nil =>
    refine ⟨rfl, hc, by simp [CircularBuffer.pushAll, CircularBuffer.new], ?_⟩
    simp [CircularBuffer.pushAll, CircularBuffer.new, CircularBuffer.toArray]
  | append_singleton xs x ih =>
    obtain ⟨hsz, hp, hl, harr⟩ := ih
    have hpush : (CircularBuffer.new c).pushAll (xs ++ [x]) =
        ((CircularBuffer.new c).pushAll xs).push x := by
      simp [CircularBuffer.pushAll]
    rw [hpush]
    refine ⟨by simp [CircularBuffer.push, hsz], ?_, ?_, ?_⟩
    · simp only [CircularBuffer.push, hsz]
      exact Nat.mod_lt _ hc
    · simp only [CircularBuffer.push, hsz, hl, List.length_append, List.length_cons,
        List.length_nil]
      split <;> omega
    · rw [toArray_push _ x (by rw [hsz]; exact hc) (by rw [hsz]; exact hp)
        (by rw [hsz, hl]; exact min_le_right _ _)]
      rw [hl, hsz, harr]
      by_cases hcase : xs.length < c
      · rw [if_pos (by omega : min xs.length c < c)]
        rw [show xs.length - min xs.length c = 0 from by omega]
        rw [show (xs ++ [x]).length - min (xs ++ [x]).length c = 0 from by
          simp
          omega]
        simp
      · rw [if_neg (by omega : ¬ min xs.length c < c)]
        rw [show xs.length - min xs.length c = xs.length - c from by omega]
        rw [List.drop_drop]
        rw [show (xs ++ [x]).length - min (xs ++ [x]).length c = xs.length + 1 - c from by
          simp
          omega]
        rw [List.drop_append_of_le_length (by omega : xs.length + 1 - c ≤ xs.length)]
        rw [show xs.length - c + 1 = xs.length + 1 - c from by omega]

/-- Claim C5: for every sequence of pushes into a fresh `CircularBuffer`
of positive capacity `c`, the reported length and the snapshot length
never exceed `c`, and `toArray()` is exactly the last `min(n, c)` pushed
values in their original insertion order (FIFO eviction of the oldest on
overflow). -/
theorem circularBuffer_spec (c : ℕ) (hc : 0 < c) (xs : List ℚ) :
    ((CircularBuffer.new c).pushAll xs).length ≤ c ∧
    ((CircularBuffer.new c).pushAll xs).toArray.length ≤ c ∧
    ((CircularBuffer.new c).pushAll xs).length = min xs.length c ∧
    ((CircularBuffer.new c).pushAll xs).toArray =
      xs.drop (xs.length - min xs.length c) := by
  obtain ⟨hsz, hp, hl, harr⟩ := pushAll_invariant c hc xs
  refine ⟨by rw [hl]; exact min_le_right _ _, ?_, hl, harr⟩
  rw [toArray_length, hl]
  exact min_le_right _ _

/-- Claim C5, witness: pushing `[1, 2, 3]` into a fresh buffer of
capacity 2 keeps exactly the last two values in order. -/
theorem circularBuffer_spec_witness :
    0 < 2 ∧ ((CircularBuffer.new 2).pushAll [1, 2, 3]).toArray = [2, 3] :=
  ⟨by norm_num, (circularBuffer_spec 2 (by norm_num) [1, 2, 3]).2.2.2⟩

/-- Claim C8, witness: the amended sentinel characterisation applied to
the empty input for RSI and SMA. -/
theorem indicator_sentinels_witness :
    calculateRSI ([] : List (JNum ℚ)) 14 = [] ∧
    calculateSMA ([] : List (JNum ℚ)) 20 = [] :=
  ⟨(indicator_sentinels.1 [] 14).mpr (by norm_num),
   (indicator_sentinels.2.2.1 [] 20).mpr (by norm_num)⟩
